import Mathlib

/-!
Shallow embedding of the device-reservation web application
(`src/website/`), covering the reservation scheduling and
conflict-resolution core: the time-interval validator, the device
availability checker, the device resolver, the availability gap computer,
the reservation lifecycle routes (create / update / delete), the device
update route, and the notification scheduler.

Modelling conventions:
* `datetime` values are modelled as integers (minutes); the code only
  compares times and subtracts a 30-minute offset.
* The SQLAlchemy reservation table is modelled as a `List Reservation`;
  committing is modelled as succeeding (the `try/except` wrappers around
  `database.session.commit` catch storage faults that are outside a
  shallow embedding).  Queries with `filter_by` / `order_by` are modelled
  by `List.filter` / insertion sort.
* `flash` messages are collected in a `List String` result component.
* Python truthiness of optional form fields is modelled with `Option`.
-/

namespace Website

/-- A row of the `Reservation` table (src/website/models.py). -/
structure Reservation where
  id : Nat
  device_id : Nat
  device_name : String
  username : String
  start_time : Int
  end_time : Int
  reason : String
deriving Repr, DecidableEq

/-- A row of the `Device` table (src/website/models.py). -/
structure Device where
  id : Nat
  device_brand : String
  device_name : String
  device_status : String
  device_type : String
  last_use : Option Int
deriving Repr, DecidableEq

/-- A row of the `User` table (src/website/models.py); only the fields the
reservation core reads. -/
structure User where
  username : String
  email_address : String
  administrator : Bool
deriving Repr, DecidableEq

/-- The `for reservation in all_reservations_for_device:` loop body of
`check_if_device_is_available` (src/website/helper_functions.py lines
30-35): `continue` on non-overlap, `return False` on the first conflict,
`return True` after the loop. -/
def device_conflict_scan (start_time end_time : Int) : List Reservation → Bool
  | [] => true
  | r :: rest =>
    if r.start_time > end_time ∨ r.end_time < start_time then
      device_conflict_scan start_time end_time rest
    else
      false

/-- Function `check_if_device_is_available` (src/website/helper_functions.py lines
24-35): scans every persisted reservation of the device. -/
def check_if_device_is_available (reservations : List Reservation)
    (device_id : Nat) (start_time end_time : Int) : Bool :=
  device_conflict_scan start_time end_time
    (reservations.filter (fun r => r.device_id == device_id))

def past_message : String := "You cannot schedule a reservation in the past."

def order_message : String := "Start time must be before end time."

/-- Function `check_start_and_end_time` (src/website/helper_functions.py lines
81-93).  The Python function reads `datetime.now()` internally; the
ambient clock is the explicit `time_now` argument here.  Returns the
verdict and the flashed messages. -/
def check_start_and_end_time (start_time end_time time_now : Int) :
    Bool × List String :=
  if start_time < time_now ∨ end_time < time_now then
    (false, [past_message])
  else if start_time ≥ end_time then
    (false, [order_message])
  else
    (true, [])

def not_found_message (device_name : String) : String :=
  "No devices found with the name " ++ device_name ++ "."

def none_available_message : String :=
  "No devices are available with the specified name."

/-- The `for device in all_devices:` loop of
`check_availability_of_device_name` (src/website/helper_functions.py lines
126-128): returns the id of the first available device. -/
def first_available_device (reservations : List Reservation)
    (start_time end_time : Int) : List Device → Option Nat
  | [] => none
  | d :: rest =>
    if check_if_device_is_available reservations d.id start_time end_time then
      some d.id
    else
      first_available_device reservations start_time end_time rest

/-- Function `check_availability_of_device_name` (src/website/helper_functions.py
lines 116-134).  Both failure paths return Python `False`, modelled as
`none`; they are distinguished by the flashed message. -/
def check_availability_of_device_name (devices : List Device)
    (reservations : List Reservation) (device_name : String)
    (start_time end_time : Int) : Option Nat × List String :=
  if (devices.filter (fun d => d.device_name == device_name)).isEmpty then
    (none, [not_found_message device_name])
  else
    match first_available_device reservations start_time end_time
        (devices.filter (fun d => d.device_name == device_name)) with
    | some device_id => (some device_id, [])
    | none => (none, [none_available_message])

/-- Claim C5: `check_start_and_end_time` rejects iff
`start < now ∨ end < now ∨ start ≥ end`, flashing the past-interval
message when the interval reaches into the past and the ordering message
when (only) the ordering check fails; being a pure function of the triple,
validating the same triple twice yields the same verdict. -/
theorem check_start_and_end_time_verdict (start_time end_time time_now : Int) :
    ((check_start_and_end_time start_time end_time time_now).1 = false ↔
      (start_time < time_now ∨ end_time < time_now ∨ start_time ≥ end_time))
    ∧ ((start_time < time_now ∨ end_time < time_now) →
        (check_start_and_end_time start_time end_time time_now).2 = [past_message])
    ∧ (¬(start_time < time_now ∨ end_time < time_now) → start_time ≥ end_time →
        (check_start_and_end_time start_time end_time time_now).2 = [order_message])
    ∧ ((check_start_and_end_time start_time end_time time_now).1 = true →
        (check_start_and_end_time start_time end_time time_now).2 = [])
    ∧ check_start_and_end_time start_time end_time time_now
        = check_start_and_end_time start_time end_time time_now := by
  unfold check_start_and_end_time
  by_cases h1 : start_time < time_now ∨ end_time < time_now
  · rw [if_pos h1]
    exact ⟨by simp; tauto, fun _ => rfl, fun hn => absurd h1 hn, by simp, rfl⟩
  · rw [if_neg h1]
    by_cases h2 : start_time ≥ end_time
    · rw [if_pos h2]
      exact ⟨by simp; tauto, fun h => absurd h h1, fun _ _ => rfl, by simp, rfl⟩
    · rw [if_neg h2]
      refine ⟨by push_neg at h1; simp; omega, fun h => absurd h h1,
        fun _ h => absurd h h2, fun _ => rfl, rfl⟩

/-- Witness for C5 at a concrete triple. -/
theorem check_start_and_end_time_verdict_witness :
    ((3 : Int) < 0 ∨ (2 : Int) < 0 ∨ (3 : Int) ≥ 2)
    ∧ (check_start_and_end_time 3 2 0).2 = [order_message] :=
  ⟨by decide,
   (check_start_and_end_time_verdict 3 2 0).2.2.1 (by decide) (by decide)⟩

/-- The scan returns `true` iff every reservation in the list is strictly
before or strictly after the probed interval. -/
theorem device_conflict_scan_true_iff (start_time end_time : Int)
    (l : List Reservation) :
    device_conflict_scan start_time end_time l = true ↔
      ∀ r ∈ l, r.start_time > end_time ∨ r.end_time < start_time := by
  induction l with
  | nil => simp [device_conflict_scan]
  | cons r rest ih =>
    by_cases h : r.start_time > end_time ∨ r.end_time < start_time
    · rw [show device_conflict_scan start_time end_time (r :: rest)
          = device_conflict_scan start_time end_time rest from by
            simp [device_conflict_scan, h], ih]
      constructor
      · intro hall r' hr'
        rcases List.mem_cons.mp hr' with h' | h'
        · exact h' ▸ h
        · exact hall r' h'
      · exact fun hall r' hr' => hall r' (List.mem_cons_of_mem r hr')
    · rw [show device_conflict_scan start_time end_time (r :: rest) = false from by
        simp [device_conflict_scan, h]]
      simp only [Bool.false_eq_true, false_iff]
      intro hall
      exact h (hall r (List.mem_cons_self r rest))

/-- Claim C2: `check_if_device_is_available` returns `true` iff every
existing reservation of the device satisfies
`r.start_time > end ∨ r.end_time < start`; it returns `true` when the
device has zero reservations; the loop returns `false` as soon as a
conflicting reservation is reached, regardless of the rest of the list;
and an interval merely touching an existing reservation at an equal
endpoint is reported as a conflict. -/
theorem check_if_device_is_available_spec (reservations : List Reservation)
    (device_id : Nat) (start_time end_time : Int) :
    (check_if_device_is_available reservations device_id start_time end_time = true ↔
      ∀ r ∈ reservations, r.device_id = device_id →
        (r.start_time > end_time ∨ r.end_time < start_time))
    ∧ ((∀ r ∈ reservations, r.device_id ≠ device_id) →
        check_if_device_is_available reservations device_id start_time end_time = true)
    ∧ (∀ (r : Reservation) (rest : List Reservation),
        ¬(r.start_time > end_time ∨ r.end_time < start_time) →
        device_conflict_scan start_time end_time (r :: rest) = false)
    ∧ (∀ r ∈ reservations, r.device_id = device_id →
        start_time ≤ end_time → r.start_time ≤ r.end_time →
        (r.end_time = start_time ∨ end_time = r.start_time) →
        check_if_device_is_available reservations device_id start_time end_time = false) := by
  have hiff : check_if_device_is_available reservations device_id start_time end_time = true ↔
      ∀ r ∈ reservations, r.device_id = device_id →
        (r.start_time > end_time ∨ r.end_time < start_time) := by
    unfold check_if_device_is_available
    rw [device_conflict_scan_true_iff]
    constructor
    · intro h r hr hdev
      exact h r (List.mem_filter.mpr ⟨hr, by simp [hdev]⟩)
    · intro h r hr
      obtain ⟨hmem, hdev⟩ := List.mem_filter.mp hr
      exact h r hmem (by simpa using hdev)
  refine ⟨hiff, ?_, ?_, ?_⟩
  · intro h
    exact hiff.mpr fun r hr hdev => absurd hdev (h r hr)
  · intro r rest h
    have hb : (r.start_time > end_time || r.end_time < start_time) = false := by
      simp only [Bool.or_eq_false_iff, decide_eq_false_iff_not]
      exact ⟨fun hx => h (Or.inl hx), fun hx => h (Or.inr hx)⟩
    simp [device_conflict_scan, hb]
  · intro r hr hdev hle hrle htouch
    have : ¬(r.start_time > end_time ∨ r.end_time < start_time) := by
      rcases htouch with h1 | h1 <;> intro hc <;> rcases hc with hc | hc <;> omega
    rw [Bool.eq_false_iff]
    intro htrue
    exact this (hiff.mp htrue r hr hdev)

/-- Witness for C2, the §8 scenario: the device has reservation
`[600, 660]` (10:00-11:00); requesting `[660, 720]` (11:00-12:00) touches
the boundary and is reported as a conflict, while `[661, 720]` is free. -/
theorem check_if_device_is_available_spec_witness :
    check_if_device_is_available [⟨1, 1, "D", "u", 600, 660, "w"⟩] 1 660 720 = false
    ∧ check_if_device_is_available [⟨1, 1, "D", "u", 600, 660, "w"⟩] 1 661 720 = true :=
  ⟨(check_if_device_is_available_spec [⟨1, 1, "D", "u", 600, 660, "w"⟩] 1 660 720).2.2.2
      ⟨1, 1, "D", "u", 600, 660, "w"⟩ (by simp) rfl (by decide) (by decide) (by decide),
   by decide⟩

/-- The loop of `check_availability_of_device_name` returns the id of the
first device of the list that the availability checker accepts. -/
theorem first_available_device_eq_find? (reservations : List Reservation)
    (start_time end_time : Int) (l : List Device) :
    first_available_device reservations start_time end_time l
      = (l.find? (fun d =>
          check_if_device_is_available reservations d.id start_time end_time)).map
          (fun d => d.id) := by
  induction l with
  | nil => rfl
  | cons d rest ih =>
    by_cases h : check_if_device_is_available reservations d.id start_time end_time = true
    · simp [first_available_device, List.find?_cons_of_pos _ h, h]
    · rw [show first_available_device reservations start_time end_time (d :: rest)
          = first_available_device reservations start_time end_time rest from by
            simp [first_available_device, h],
        List.find?_cons_of_neg _ (by simpa using h), ih]

/-- Claim C6: the device resolver returns the identifier of the first
device, in retrieval order, among the devices carrying the requested name
that the availability checker accepts; with zero matching devices it
signals not-found, with matching but fully busy devices it signals
none-available, and the two failure messages are distinct. -/
theorem check_availability_of_device_name_spec (devices : List Device)
    (reservations : List Reservation) (device_name : String)
    (start_time end_time : Int) :
    ((check_availability_of_device_name devices reservations device_name
        start_time end_time).1
      = ((devices.filter (fun d => d.device_name == device_name)).find?
          (fun d =>
            check_if_device_is_available reservations d.id start_time end_time)).map
          (fun d => d.id))
    ∧ (devices.filter (fun d => d.device_name == device_name) = [] →
        check_availability_of_device_name devices reservations device_name
            start_time end_time
          = (none, [not_found_message device_name]))
    ∧ (devices.filter (fun d => d.device_name == device_name) ≠ [] →
        (∀ d ∈ devices.filter (fun d => d.device_name == device_name),
          check_if_device_is_available reservations d.id start_time end_time = false) →
        check_availability_of_device_name devices reservations device_name
            start_time end_time
          = (none, [none_available_message]))
    ∧ not_found_message device_name ≠ none_available_message := by
  have hmsg : not_found_message device_name ≠ none_available_message := by
    intro h
    have hd := congrArg String.data h
    rw [not_found_message, none_available_message, String.data_append,
      String.data_append] at hd
    have h1 : (11 : Nat) < ("No devices found with the name ".data).length := by
      decide
    have h2 : (11 : Nat) <
        ("No devices found with the name ".data ++ device_name.data).length := by
      rw [List.length_append]; omega
    have h3 : (("No devices found with the name ".data ++ device_name.data)
          ++ ".".data)[11]?
        = ("No devices are available with the specified name.".data)[11]? :=
      congrArg (fun l => l[11]?) hd
    rw [List.getElem?_append, if_pos h2, List.getElem?_append, if_pos h1] at h3
    revert h3
    decide
  refine ⟨?_, ?_, ?_, hmsg⟩
  · unfold check_availability_of_device_name
    by_cases hfil : devices.filter (fun d => d.device_name == device_name) = []
    · simp [hfil]
    · rw [if_neg (by simpa [List.isEmpty_iff] using hfil),
        first_available_device_eq_find?]
      cases hfind : (devices.filter (fun d => d.device_name == device_name)).find?
          (fun d =>
            check_if_device_is_available reservations d.id start_time end_time) with
      | none => simp [hfind]
      | some d => simp [hfind]
  · intro hfil
    unfold check_availability_of_device_name
    simp [hfil]
  · intro hfil hbusy
    unfold check_availability_of_device_name
    rw [if_neg (by simpa [List.isEmpty_iff] using hfil),
      first_available_device_eq_find?]
    have hnone : (devices.filter (fun d => d.device_name == device_name)).find?
        (fun d =>
          check_if_device_is_available reservations d.id start_time end_time) = none := by
      rw [List.find?_eq_none]
      intro d hd
      simp [hbusy d hd]
    simp [hnone]

def resolver_demo_devices : List Device :=
  [⟨1, "b", "Laptop-A", "s", "t", none⟩, ⟨2, "b", "Laptop-A", "s", "t", none⟩]

def resolver_demo_reservations : List Reservation :=
  [⟨1, 1, "Laptop-A", "u", 800, 900, "w"⟩]

/-- Witness for C6, the §8 scenario: two devices named "Laptop-A", the
first busy over `[840, 900]` (14:00-15:00), the second free: the resolver
returns the free device's id; and with no matching device it signals
not-found. -/
theorem check_availability_of_device_name_spec_witness :
    (check_availability_of_device_name resolver_demo_devices
        resolver_demo_reservations "Laptop-A" 840 900).1 = some 2
    ∧ check_availability_of_device_name [] [] "Laptop-A" 0 10
        = (none, [not_found_message "Laptop-A"]) :=
  ⟨((check_availability_of_device_name_spec resolver_demo_devices
      resolver_demo_reservations "Laptop-A" 840 900).1).trans (by decide),
   (check_availability_of_device_name_spec [] [] "Laptop-A" 0 10).2.1 rfl⟩

/-- An in-memory `Reservation` ORM object as the scheduler receives it:
unlike a persisted row, its autoincrement primary key is Python `None`
(`none`) until the session flushes the INSERT.  At the helper's only call
site (src/website/reservation_page_routing.py line 146) the object was
just constructed (lines 138-145) and `session.add`/`commit` run only
afterwards, inside `table_create_item` (line 149), so `id` is still
unassigned there. -/
structure ReservationObject where
  id : Option Nat
  device_id : Nat
  device_name : String
  username : String
  start_time : Int
  end_time : Int
  reason : String
deriving Repr, DecidableEq

/-- A scheduled notification job: `scheduler.add_job` receives
`func=send_reservation_email`, `args=[current_user.email_address,
reservation]` and `run_date=start_time - 30 minutes`
(src/website/helper_functions.py lines 64-78). -/
structure Job where
  recipient : String
  reservation : ReservationObject
  run_date : Int
deriving Repr, DecidableEq

/-- APScheduler's `add_job(..., id=job_id, replace_existing=True)`: the job
store is a keyed map, modelled as an association list; an existing entry
under the same id is replaced, never duplicated. -/
def add_job (jobs : List (String × Job)) (job_id : String) (job : Job) :
    List (String × Job) :=
  (jobs.filter (fun p => p.1 != job_id)) ++ [(job_id, job)]

/-- Python string interpolation of the `id` attribute: an assigned key
renders as its decimal digits, an unassigned one renders as `"None"`. -/
def python_repr_id : Option Nat → String
  | some n => toString n
  | none => "None"

/-- The f-string `f"notify_user_{reservation.id}"`
(src/website/helper_functions.py line 69), applied to the `id` attribute
of the in-memory object — which is `none` when the object has not been
flushed yet. -/
def notify_job_id (reservation_id? : Option Nat) : String :=
  "notify_user_" ++ python_repr_id reservation_id?

/-- Function `schedule_reservation_notification` (src/website/helper_functions.py
lines 64-78): schedules the email job 30 minutes before the start, keyed
by the current value of the reservation object's `id` attribute. -/
def schedule_reservation_notification (jobs : List (String × Job))
    (email_address : String) (reservation : ReservationObject) :
    List (String × Job) :=
  add_job jobs (notify_job_id reservation.id)
    ⟨email_address, reservation, reservation.start_time - 30⟩

/-- The decimal digit list of a natural number, low digit last; mirrors
what `Nat.toDigitsCore` accumulates. -/
def natChars (n : Nat) : List Char :=
  if n < 10 then
    [Nat.digitChar n]
  else
    natChars (n / 10) ++ [Nat.digitChar (n % 10)]
termination_by n
decreasing_by simp_wf; omega

theorem natChars_ne_nil (n : Nat) : natChars n ≠ [] := by
  unfold natChars
  split
  · simp
  · simp

theorem toDigitsCore_eq_natChars (fuel n : Nat) (acc : List Char)
    (h : n < fuel) :
    Nat.toDigitsCore 10 fuel n acc = natChars n ++ acc := by
  induction fuel generalizing n acc with
  | zero => omega
  | succ fuel ih =>
    by_cases h0 : n / 10 = 0
    · have hn : n < 10 := by omega
      rw [show natChars n = [Nat.digitChar n] from by rw [natChars]; simp [hn]]
      simp [Nat.toDigitsCore, h0, Nat.mod_eq_of_lt hn]
    · have hn : ¬ n < 10 := by omega
      rw [show natChars n = natChars (n / 10) ++ [Nat.digitChar (n % 10)] from by
        rw [natChars]; simp [hn]]
      have hlt : n / 10 < fuel := by omega
      simp [Nat.toDigitsCore, h0, ih (n / 10) (Nat.digitChar (n % 10) :: acc) hlt]

theorem digitChar_inj_lt (a b : Nat) (ha : a < 10) (hb : b < 10)
    (h : Nat.digitChar a = Nat.digitChar b) : a = b := by
  have haux : ∀ x : Fin 10, ∀ y : Fin 10,
      Nat.digitChar x.1 = Nat.digitChar y.1 → x.1 = y.1 := by decide
  exact haux ⟨a, ha⟩ ⟨b, hb⟩ h

theorem natChars_lt (k : Nat) (hk : k < 10) :
    natChars k = [Nat.digitChar k] := by
  rw [natChars]; simp [hk]

theorem natChars_ge (k : Nat) (hk : ¬ k < 10) :
    natChars k = natChars (k / 10) ++ [Nat.digitChar (k % 10)] := by
  rw [natChars]; simp [hk]

theorem natChars_injective : ∀ n m : Nat, natChars n = natChars m → n = m := by
  intro n
  induction n using Nat.strong_induction_on with
  | _ n ih =>
    intro m h
    by_cases hn : n < 10 <;> by_cases hm : m < 10
    · rw [natChars_lt n hn, natChars_lt m hm] at h
      exact digitChar_inj_lt n m hn hm (List.singleton_injective h)
    · rw [natChars_lt n hn, natChars_ge m hm] at h
      have hlen := congrArg List.length h
      rw [List.length_append] at hlen
      simp only [List.length_singleton] at hlen
      have hpos : 0 < (natChars (m / 10)).length :=
        List.length_pos.mpr (natChars_ne_nil _)
      omega
    · rw [natChars_ge n hn, natChars_lt m hm] at h
      have hlen := congrArg List.length h
      rw [List.length_append] at hlen
      simp only [List.length_singleton] at hlen
      have hpos : 0 < (natChars (n / 10)).length :=
        List.length_pos.mpr (natChars_ne_nil _)
      omega
    · rw [natChars_ge n hn, natChars_ge m hm] at h
      obtain ⟨hinit, hlast⟩ := List.append_inj' h rfl
      have hdiv : n / 10 = m / 10 :=
        ih (n / 10) (by omega) (m / 10) hinit
      have hmod : n % 10 = m % 10 :=
        digitChar_inj_lt (n % 10) (m % 10) (by omega) (by omega)
          (List.singleton_injective hlast)
      omega

/-- Decimal printing `Nat.repr` (hence `toString` on `Nat`, used by the
job-id f-string) is injective. -/
theorem nat_repr_injective (n m : Nat) (h : Nat.repr n = Nat.repr m) :
    n = m := by
  have hdata := congrArg String.data h
  rw [Nat.repr, Nat.repr, Nat.toDigits, Nat.toDigits,
    toDigitsCore_eq_natChars (n + 1) n [] (by omega),
    toDigitsCore_eq_natChars (m + 1) m [] (by omega)] at hdata
  simp only [List.asString, List.append_nil] at hdata
  exact natChars_injective n m hdata

/-- For flushed rows the helper's keying is per-reservation: distinct
assigned ids produce distinct job keys.  The key collision exhibited for
C8 therefore comes solely from scheduling before the INSERT is flushed,
while the id is still unassigned. -/
theorem notify_job_id_injective_on_assigned (a b : Nat)
    (h : notify_job_id (some a) = notify_job_id (some b)) : a = b := by
  have hdata := congrArg String.data h
  simp only [notify_job_id, python_repr_id, String.data_append] at hdata
  have htail := List.append_cancel_left hdata
  exact nat_repr_injective a b (String.ext htail)

theorem filter_key_filter_ne (jobs : List (String × Job)) (key jid : String)
    (h : key ≠ jid) :
    (jobs.filter (fun p => p.1 != jid)).filter (fun p => p.1 == key)
      = jobs.filter (fun p => p.1 == key) := by
  induction jobs with
  | nil => rfl
  | cons a tl ih =>
    by_cases hk : a.1 == key
    · have hne : (a.1 != jid) = true := by
        have : a.1 = key := by simpa using hk
        simp [this, h]
      simp [List.filter_cons, hne, hk, ih]
    · by_cases hj : (a.1 != jid) = true
      · simp [List.filter_cons, hj, hk, ih]
      · simp [List.filter_cons, hj, hk, ih]

theorem filter_key_filter_self (jobs : List (String × Job)) (key : String) :
    (jobs.filter (fun p => p.1 != key)).filter (fun p => p.1 == key) = [] := by
  induction jobs with
  | nil => rfl
  | cons a tl ih =>
    by_cases hj : (a.1 != key) = true
    · have hk : (a.1 == key) = false := by
        simpa [bne] using hj
      simp [List.filter_cons, hj, hk, ih]
    · simp [List.filter_cons, hj, ih]

/-- With `replace_existing=True`, after `add_job` the store holds exactly
one entry under the scheduled id: the new job — replaced, never
duplicated. -/
theorem add_job_filter_key (jobs : List (String × Job)) (job_id : String)
    (job : Job) :
    (add_job jobs job_id job).filter (fun p => p.1 == job_id)
      = [(job_id, job)] := by
  unfold add_job
  rw [List.filter_append, filter_key_filter_self]
  simp

/-- Entries under any other id survive `add_job` unchanged. -/
theorem add_job_filter_other_key (jobs : List (String × Job))
    (job_id key : String) (job : Job) (h : key ≠ job_id) :
    (add_job jobs job_id job).filter (fun p => p.1 == key)
      = jobs.filter (fun p => p.1 == key) := by
  unfold add_job
  rw [List.filter_append, filter_key_filter_ne _ _ _ h]
  have hfalse : (job_id == key) = false := by
    rw [beq_eq_false_iff_ne]
    exact fun hc => h hc.symm
  simp [List.filter_cons, hfalse]

/-- The reservation objects exactly as they exist at the helper's only
call (the create route, before `table_create_item` adds and commits them):
two distinct reservations, both with the primary key still unassigned. -/
def pending_create_obj1 : ReservationObject :=
  ⟨none, 1, "Laptop", "alice", 100, 200, "w"⟩

def pending_create_obj2 : ReservationObject :=
  ⟨none, 1, "Laptop", "bob", 300, 400, "w"⟩

/-- Claim C8 fails on the code: at the only call site
(src/website/reservation_page_routing.py line 146) the reservation has not
been added to the session or flushed — `table_create_item` runs only at
line 149 — so `reservation.id` is still `None` and every scheduled job is
keyed `"notify_user_None"`.  Scheduling for a second, distinct reservation
therefore replaces the first one's pending job: after two creates the
store holds exactly one job, carrying the second reservation.  The
helper's f-string keying is clearly meant to be per-reservation (and is
injective once ids are assigned), so scheduling before the flush is a
code slip. -/
theorem schedule_notification_collides_on_unassigned_id :
    notify_job_id pending_create_obj1.id = "notify_user_None"
    ∧ notify_job_id pending_create_obj2.id = "notify_user_None"
    ∧ pending_create_obj1 ≠ pending_create_obj2
    ∧ schedule_reservation_notification
        (schedule_reservation_notification [] "a@x" pending_create_obj1)
        "b@x" pending_create_obj2
      = [("notify_user_None", ⟨"b@x", pending_create_obj2, 270⟩)] := by
  decide

/-- The `for i in range(len(reservations) - 1):` loop of
`see_availability` (src/website/device_page_routing.py lines 125-135),
translated as recursion over consecutive pairs: a gap
`(end_time r[i], start_time r[i+1])` is appended exactly when
`r[i].end_time < r[i+1].start_time`. -/
def between_gaps : List Reservation → List (Int × Option Int)
  | r1 :: r2 :: rest =>
    (if r1.end_time < r2.start_time then [(r1.end_time, some r2.start_time)] else [])
      ++ between_gaps (r2 :: rest)
  | _ => []

/-- The availability-slot computation of `see_availability`
(src/website/device_page_routing.py lines 118-147), taking the
already-filtered, already-ordered reservation list (the database query
orders by `start_time`).  A slot `(s, some e)` renders as
`{"start": s, "end": e}` and `(s, none)` as an open-ended
`{"start": s, "end": None}`. -/
def see_availability_slots (time_now : Int) :
    List Reservation → List (Int × Option Int)
  | [] => [(time_now, none)]
  | r :: rest =>
    (if time_now < r.start_time then [(time_now, some r.start_time)] else [])
      ++ between_gaps (r :: rest)
      ++ [((rest.getLastD r).end_time, none)]

/-- The reservation query of `see_availability`
(src/website/device_page_routing.py lines 111-116):
`filter_by(device_id).filter(start_time > now).order_by(start_time)`. -/
def future_reservations (reservations : List Reservation) (device_id : Nat)
    (time_now : Int) : List Reservation :=
  (reservations.filter
      (fun r => r.device_id == device_id && decide (time_now < r.start_time))).insertionSort
    (fun a b => a.start_time ≤ b.start_time)

/-- Modelled from the spec (§4.4): the gap computer's output described
slot by slot — one open gap from `now` when no future reservation exists;
otherwise an optional leading gap, one gap per consecutive pair with
`r[i].end_time < r[i+1].start_time` (zipped pairs), and a trailing open
gap after the last reservation. -/
def compute_gaps_spec (time_now : Int) (rs : List Reservation) :
    List (Int × Option Int) :=
  match rs with
  | [] => [(time_now, none)]
  | r :: rest =>
    (if time_now < r.start_time then [(time_now, some r.start_time)] else [])
      ++ (rs.zip rest).filterMap (fun p =>
          if p.1.end_time < p.2.start_time then
            some (p.1.end_time, some p.2.start_time)
          else
            none)
      ++ [((rest.getLastD r).end_time, none)]

theorem between_gaps_eq_zip (l : List Reservation) :
    between_gaps l = (l.zip l.tail).filterMap (fun p =>
      if p.1.end_time < p.2.start_time then
        some (p.1.end_time, some p.2.start_time)
      else
        none) := by
  induction l with
  | nil => rfl
  | cons r1 tl ih =>
    cases tl with
    | nil => rfl
    | cons r2 rest =>
      rw [show (r1 :: r2 :: rest).zip (r1 :: r2 :: rest).tail
          = (r1, r2) :: ((r2 :: rest).zip (r2 :: rest).tail) from rfl,
        List.filterMap_cons]
      by_cases h : r1.end_time < r2.start_time
      · simp only [between_gaps, h, if_true, if_pos h, ih]
        rfl
      · simp only [between_gaps, h, if_false, if_neg h, ih]
        rfl

/-- Claim C4: the gap computer produces exactly the slots the spec
describes: a single open-ended gap from `now` when there is no future
reservation; otherwise a leading gap `(now, first.start_time)` exactly
when `now < first.start_time`, a gap `(r[i].end_time, r[i+1].start_time)`
for each consecutive pair exactly when `r[i].end_time < r[i+1].start_time`
(back-to-back pairs emit nothing), and always a trailing open-ended gap
`(last.end_time, open)`. -/
theorem see_availability_slots_eq_compute_gaps_spec (time_now : Int)
    (rs : List Reservation) :
    see_availability_slots time_now rs = compute_gaps_spec time_now rs := by
  cases rs with
  | nil => rfl
  | cons r rest =>
    rw [see_availability_slots, compute_gaps_spec,
      between_gaps_eq_zip (r :: rest)]
    rfl

/-- Membership of a time in a slot: a closed gap or reservation slot
`(s, some e)` covers the half-open interval `[s, e)`, an open-ended gap
`(s, none)` covers `[s, +inf)`. -/
def slotMem (t : Int) : Int × Option Int → Prop
  | (s, some e) => s ≤ t ∧ t < e
  | (s, none) => s ≤ t

instance : ∀ (t : Int) (p : Int × Option Int), Decidable (slotMem t p)
  | t, (s, some e) => inferInstanceAs (Decidable (s ≤ t ∧ t < e))
  | t, (s, none) => inferInstanceAs (Decidable (s ≤ t))

/-- Two slots are disjoint when no time belongs to both. -/
def slotDisj (p q : Int × Option Int) : Prop :=
  ∀ t : Int, slotMem t p → slotMem t q → False

/-- The sequence the availability page displays: the computed gap slots
together with the listed (future) reservations, each contributing its
half-open interval. -/
def combined_schedule (time_now : Int) (rs : List Reservation) :
    List (Int × Option Int) :=
  see_availability_slots time_now rs
    ++ rs.map (fun r => (r.start_time, some r.end_time))

theorem see_availability_slots_cons (time_now : Int) (r : Reservation)
    (rest : List Reservation) :
    see_availability_slots time_now (r :: rest)
      = (if time_now < r.start_time then [(time_now, some r.start_time)] else [])
        ++ see_availability_slots r.end_time rest := by
  cases rest with
  | nil => simp [see_availability_slots, between_gaps]
  | cons r2 rest2 =>
    rw [see_availability_slots, see_availability_slots, between_gaps,
      List.getLastD_cons]
    simp [List.append_assoc]

/-- Inductive core for C3: provided each listed reservation is
well-formed (`start < end`), consecutive reservations do not overlap
(`end ≤ next start`), and the probe time is at or before the first start,
the gap slots plus the reservation slots cover `[now, +inf)` exactly and
are pairwise disjoint. -/
theorem combined_schedule_tiles (rs : List Reservation) : ∀ (time_now : Int),
    (∀ r ∈ rs, r.start_time < r.end_time) →
    List.Chain' (fun a b => a.end_time ≤ b.start_time) rs →
    (∀ r, rs.head? = some r → time_now ≤ r.start_time) →
    ((∀ t : Int, time_now ≤ t ↔
        ∃ p ∈ combined_schedule time_now rs, slotMem t p)
      ∧ List.Pairwise slotDisj (combined_schedule time_now rs)) := by
  induction rs with
  | nil =>
    intro time_now _ _ _
    constructor
    · intro t
      simp [combined_schedule, see_availability_slots, slotMem]
    · simp [combined_schedule, see_availability_slots]
  | cons r rest ih =>
    intro time_now hse hch hhead
    have hnr : time_now ≤ r.start_time := hhead r rfl
    have hrse : r.start_time < r.end_time := hse r (List.mem_cons_self r rest)
    have hse2 : ∀ x ∈ rest, x.start_time < x.end_time :=
      fun x hx => hse x (List.mem_cons_of_mem r hx)
    have hch2 : List.Chain' (fun a b => a.end_time ≤ b.start_time) rest :=
      (List.chain'_cons'.mp hch).2
    have hhead2 : ∀ x, rest.head? = some x → r.end_time ≤ x.start_time :=
      fun x hx => (List.chain'_cons'.mp hch).1 x hx
    obtain ⟨iha, ihb⟩ := ih r.end_time hse2 hch2 hhead2
    have hcomb : combined_schedule time_now (r :: rest)
        = ((if time_now < r.start_time
              then [(time_now, some r.start_time)] else [])
            ++ see_availability_slots r.end_time rest)
          ++ ((r.start_time, some r.end_time)
            :: rest.map (fun x => (x.start_time, some x.end_time))) := by
      rw [combined_schedule, see_availability_slots_cons, List.map_cons]
      try rfl
    have hK : ∀ p ∈ combined_schedule r.end_time rest, ∀ t : Int,
        slotMem t p → r.end_time ≤ t :=
      fun p hp t ht => (iha t).mpr ⟨p, hp, ht⟩
    have hKgaps : ∀ p ∈ see_availability_slots r.end_time rest, ∀ t : Int,
        slotMem t p → r.end_time ≤ t :=
      fun p hp t ht =>
        hK p (List.mem_append_left _ hp) t ht
    have hKres : ∀ p ∈ rest.map (fun x => (x.start_time, some x.end_time)),
        ∀ t : Int, slotMem t p → r.end_time ≤ t :=
      fun p hp t ht =>
        hK p (List.mem_append_right _ hp) t ht
    constructor
    · intro t
      rw [hcomb]
      constructor
      · intro hnt
        by_cases h1 : t < r.start_time
        · refine ⟨(time_now, some r.start_time), ?_, ?_⟩
          · apply List.mem_append_left
            apply List.mem_append_left
            simp [show time_now < r.start_time by omega]
          · exact ⟨hnt, h1⟩
        · by_cases h2 : t < r.end_time
          · exact ⟨(r.start_time, some r.end_time),
              List.mem_append_right _ (List.mem_cons_self _ _), by omega, h2⟩
          · obtain ⟨p, hp, hmemt⟩ := (iha t).mp (by omega)
            rcases List.mem_append.mp hp with hp' | hp'
            · exact ⟨p, List.mem_append_left _ (List.mem_append_right _ hp'),
                hmemt⟩
            · exact ⟨p, List.mem_append_right _ (List.mem_cons_of_mem _ hp'),
                hmemt⟩
      · rintro ⟨p, hp, hmemt⟩
        rcases List.mem_append.mp hp with hp' | hp'
        · rcases List.mem_append.mp hp' with hp'' | hp''
          · by_cases h1 : time_now < r.start_time
            · rw [if_pos h1] at hp''
              have : p = (time_now, some r.start_time) := by simpa using hp''
              subst this
              exact hmemt.1
            · rw [if_neg h1] at hp''
              simp at hp''
          · have := hKgaps p hp'' t hmemt
            omega
        · rcases List.mem_cons.mp hp' with hp'' | hp''
          · subst hp''
            have : r.start_time ≤ t := hmemt.1
            omega
          · have := hKres p hp'' t hmemt
            omega
    · rw [hcomb]
      have hBD := ihb
      rw [combined_schedule, List.pairwise_append] at hBD
      obtain ⟨hB, hD, hBDcross⟩ := hBD
      rw [List.pairwise_append]
      refine ⟨?_, ?_, ?_⟩
      · rw [List.pairwise_append]
        refine ⟨?_, hB, ?_⟩
        · by_cases h1 : time_now < r.start_time
          · simp [h1]
          · simp [h1]
        · intro a ha p hp t hta htp
          by_cases h1 : time_now < r.start_time
          · rw [if_pos h1] at ha
            have : a = (time_now, some r.start_time) := by simpa using ha
            subst this
            have h2 : t < r.start_time := hta.2
            have h3 := hKgaps p hp t htp
            omega
          · rw [if_neg h1] at ha
            simp at ha
      · constructor
        · intro q hq t htc htq
          have h1 : t < r.end_time := htc.2
          have h2 := hKres q hq t htq
          omega
        · exact hD
      · intro a ha q hq t hta htq
        rcases List.mem_append.mp ha with ha' | ha'
        · by_cases h1 : time_now < r.start_time
          · rw [if_pos h1] at ha'
            have : a = (time_now, some r.start_time) := by simpa using ha'
            subst this
            have h2 : t < r.start_time := hta.2
            rcases List.mem_cons.mp hq with hq' | hq'
            · subst hq'
              have : r.start_time ≤ t := htq.1
              omega
            · have := hKres q hq' t htq
              omega
          · rw [if_neg h1] at ha'
            simp at ha'
        · have h3 := hKgaps a ha' t hta
          rcases List.mem_cons.mp hq with hq' | hq'
          · subst hq'
            have : t < r.end_time := htq.2
            omega
          · exact hBDcross a ha' q hq' t hta htq

instance : IsTotal Reservation (fun a b => a.start_time ≤ b.start_time) :=
  ⟨fun a b => le_total a.start_time b.start_time⟩

instance : IsTrans Reservation (fun a b => a.start_time ≤ b.start_time) :=
  ⟨fun _ _ _ hab hbc => le_trans hab hbc⟩

/-- Claim C3: for every device and probe time, the gap list concatenated
with the reservations the availability view lists (the device's future
reservations, in start-time order) covers `[now, +inf)` exactly and has no
overlapping intervals — under the persisted-state invariants that
reservations of one device never overlap and every reservation has
`start_time < end_time`.  The state may freely contain reservations that
are already in progress at `now` or lie entirely in the past: the query
excludes them, so the property is unaffected by their presence. -/
theorem see_availability_partitions (state : List Reservation)
    (device_id : Nat) (time_now : Int)
    (hinv : List.Pairwise (fun a b => a.device_id = b.device_id →
      a.end_time < b.start_time ∨ b.end_time < a.start_time) state)
    (htimes : ∀ r ∈ state, r.start_time < r.end_time) :
    (∀ t : Int, time_now ≤ t ↔
      ∃ p ∈ combined_schedule time_now
          (future_reservations state device_id time_now), slotMem t p)
    ∧ List.Pairwise slotDisj
        (combined_schedule time_now
          (future_reservations state device_id time_now)) := by
  have hperm : (future_reservations state device_id time_now).Perm
      (state.filter (fun r =>
        r.device_id == device_id && decide (time_now < r.start_time))) :=
    List.perm_insertionSort _ _
  have hmem : ∀ r ∈ future_reservations state device_id time_now,
      r.device_id = device_id ∧ time_now < r.start_time
        ∧ r.start_time < r.end_time := by
    intro r hr
    have hr2 := hperm.mem_iff.mp hr
    obtain ⟨hst, hpred⟩ := List.mem_filter.mp hr2
    simp only [Bool.and_eq_true, beq_iff_eq, decide_eq_true_eq] at hpred
    exact ⟨hpred.1, hpred.2, htimes r hst⟩
  have hsorted : List.Pairwise (fun a b => a.start_time ≤ b.start_time)
      (future_reservations state device_id time_now) :=
    List.sorted_insertionSort _ _
  have hfilpw : List.Pairwise (fun a b => a.device_id = b.device_id →
      a.end_time < b.start_time ∨ b.end_time < a.start_time)
      (state.filter (fun r =>
        r.device_id == device_id && decide (time_now < r.start_time))) :=
    hinv.sublist (List.filter_sublist state)
  have hrspw : List.Pairwise (fun a b => a.device_id = b.device_id →
      a.end_time < b.start_time ∨ b.end_time < a.start_time)
      (future_reservations state device_id time_now) :=
    (hperm.pairwise_iff
      (fun hab heq => Or.symm (hab heq.symm))).mpr hfilpw
  have hchain : List.Chain' (fun a b => a.end_time ≤ b.start_time)
      (future_reservations state device_id time_now) := by
    apply List.Pairwise.chain'
    apply (hsorted.and hrspw).imp_of_mem
    intro a b ha hb hab
    obtain ⟨hle, hR⟩ := hab
    obtain ⟨hda, _, _⟩ := hmem a ha
    obtain ⟨hdb, _, hsb⟩ := hmem b hb
    rcases hR (by rw [hda, hdb]) with h | h
    · omega
    · omega
  have hhead : ∀ x, (future_reservations state device_id time_now).head?
      = some x → time_now ≤ x.start_time := by
    intro x hx
    have hxmem : x ∈ future_reservations state device_id time_now :=
      List.mem_of_mem_head? (Option.mem_def.mpr hx)
    exact le_of_lt (hmem x hxmem).2.1
  exact combined_schedule_tiles (future_reservations state device_id time_now)
    time_now (fun r hr => (hmem r hr).2.2) hchain hhead

def gap_demo_state : List Reservation :=
  [⟨1, 1, "D", "u", -5, 15, "w"⟩, ⟨2, 1, "D", "u", 20, 30, "w"⟩]

/-- Witness for C3: a state holding a reservation already in progress at
`now = 10` (interval `[-5, 15]`) together with a future one (`[20, 30]`):
the gap slots plus the listed future reservations still tile
`[10, +inf)`. -/
theorem see_availability_partitions_witness :
    (∀ t : Int, (10 : Int) ≤ t ↔
      ∃ p ∈ combined_schedule 10 (future_reservations gap_demo_state 1 10),
        slotMem t p)
    ∧ List.Pairwise slotDisj
        (combined_schedule 10 (future_reservations gap_demo_state 1 10)) :=
  see_availability_partitions gap_demo_state 1 10
    (by decide) (by decide)

/-- Result of a POST to the reservation create route:
the persisted reservation table, whether the reservation was committed,
and whether an uncaught exception aborted the request. -/
structure CreateOutcome where
  reservations : List Reservation
  created : Bool
  raised : Bool
deriving Repr, DecidableEq

/-- The tail of `create` (src/website/reservation_page_routing.py lines
137-151): look the device up again, build the reservation, call
`schedule_reservation_notification` (which has no exception handling — a
scheduler failure propagates and aborts the request before
`table_create_item` runs), then add and commit.  `sched_ok` models
whether `scheduler.add_job` succeeds; `new_id` is the value the
autoincrementing primary key assigns. -/
def create_finish (devices : List Device) (reservations : List Reservation)
    (user : User) (device_id : Nat) (start_time end_time : Int)
    (reason : String) (new_id : Nat) (sched_ok : Bool) : CreateOutcome :=
  match devices.find? (fun d => d.id == device_id) with
  | none => ⟨reservations, false, true⟩
  | some device =>
    if sched_ok then
      ⟨reservations
          ++ [⟨new_id, device_id, device.device_name, user.username,
              start_time, end_time, reason⟩],
        true, false⟩
    else
      ⟨reservations, false, true⟩

/-- The POST branch of the reservation `create` route
(src/website/reservation_page_routing.py lines 101-151).  `usernames` is
the username column of the `User` table (for
`check_if_user_exists_from_username`). -/
def create_flow (devices : List Device) (usernames : List String)
    (reservations : List Reservation) (user : User)
    (device_id? : Option Nat) (device_name : String)
    (start_time end_time : Int) (reason : String)
    (time_now : Int) (new_id : Nat) (sched_ok : Bool) : CreateOutcome :=
  if !(check_start_and_end_time start_time end_time time_now).1 then
    ⟨reservations, false, false⟩
  else
    match device_id? with
    | some device_id =>
      if !check_if_device_is_available reservations device_id start_time end_time then
        ⟨reservations, false, false⟩
      else
        match devices.find? (fun d => d.id == device_id) with
        | none => ⟨reservations, false, false⟩
        | some _ =>
          create_finish devices reservations user device_id start_time
            end_time reason new_id sched_ok
    | none =>
      match (check_availability_of_device_name devices reservations
          device_name start_time end_time).1 with
      | none => ⟨reservations, false, false⟩
      | some device_id =>
        if !(usernames.contains user.username) then
          ⟨reservations, false, false⟩
        else
          create_finish devices reservations user device_id start_time
            end_time reason new_id sched_ok

/-- Result of a POST to the reservation update route. -/
structure UpdateOutcome where
  reservations : List Reservation
  updated : Bool
deriving Repr, DecidableEq

/-- The session's in-memory mutation of the reservation row, visible to
any query issued later in the same request (SQLAlchemy autoflush). -/
def apply_update (reservations : List Reservation) (reservation_id : Nat)
    (r : Reservation) : List Reservation :=
  reservations.map (fun x => if x.id == reservation_id then r else x)

/-- The `device_id` step of the reservation `update` route
(src/website/reservation_page_routing.py lines 214-227): existence check,
then availability check over the session state, then commit. -/
def update_device_id_step (devices : List Device)
    (reservations : List Reservation) (reservation_id : Nat)
    (r : Reservation) (device_id? : Option Nat) : UpdateOutcome :=
  match device_id? with
  | some device_id =>
    if !(devices.any (fun d => d.id == device_id)) then
      ⟨reservations, false⟩
    else if check_if_device_is_available
        (apply_update reservations reservation_id r) device_id
        r.start_time r.end_time then
      ⟨apply_update reservations reservation_id
          {r with device_id := device_id}, true⟩
    else
      ⟨reservations, false⟩
  | none => ⟨apply_update reservations reservation_id r, true⟩

/-- The `device_name` step of the reservation `update` route
(src/website/reservation_page_routing.py lines 207-213): re-resolve via
the resolver over the (possibly just-updated) time window; on success the
resolved id flows into the `device_id` step. -/
def update_device_name_step (devices : List Device)
    (reservations : List Reservation) (reservation_id : Nat)
    (r : Reservation) (device_id? : Option Nat)
    (device_name? : Option String) : UpdateOutcome :=
  match device_name? with
  | some device_name =>
    match (check_availability_of_device_name devices
        (apply_update reservations reservation_id r) device_name
        r.start_time r.end_time).1 with
    | none => ⟨reservations, false⟩
    | some device_id =>
      update_device_id_step devices reservations reservation_id
        {r with device_name := device_name} (some device_id)
  | none =>
    update_device_id_step devices reservations reservation_id r device_id?

/-- The time step of the reservation `update` route
(src/website/reservation_page_routing.py lines 188-206): both times,
only a start, only an end, or neither; each combination re-runs
`check_start_and_end_time` and aborts the request on failure.  No
availability check happens in this step. -/
def update_times_step (devices : List Device)
    (reservations : List Reservation) (reservation_id : Nat)
    (r : Reservation) (device_id? : Option Nat)
    (device_name? : Option String)
    (start_time? end_time? : Option Int) (time_now : Int) : UpdateOutcome :=
  match start_time?, end_time? with
  | some s, some e =>
    if (check_start_and_end_time s e time_now).1 then
      update_device_name_step devices reservations reservation_id
        {r with start_time := s, end_time := e} device_id? device_name?
    else
      ⟨reservations, false⟩
  | some s, none =>
    if (check_start_and_end_time s r.end_time time_now).1 then
      update_device_name_step devices reservations reservation_id
        {r with start_time := s} device_id? device_name?
    else
      ⟨reservations, false⟩
  | none, some e =>
    if (check_start_and_end_time r.start_time e time_now).1 then
      update_device_name_step devices reservations reservation_id
        {r with end_time := e} device_id? device_name?
    else
      ⟨reservations, false⟩
  | none, none =>
    update_device_name_step devices reservations reservation_id r
      device_id? device_name?

/-- The POST branch of the reservation `update` route
(src/website/reservation_page_routing.py lines 155-230): administrator
only; optional per-field deltas applied in the fixed order
reason → username → times → device_name → device_id, aborting (with the
persisted state unchanged) on the first failing field. -/
def update_flow (devices : List Device) (usernames : List String)
    (reservations : List Reservation) (user : User) (reservation_id : Nat)
    (device_id? : Option Nat) (device_name? : Option String)
    (username? : Option String) (start_time? end_time? : Option Int)
    (reason? : Option String) (time_now : Int) : UpdateOutcome :=
  match reservations.find? (fun x => x.id == reservation_id) with
  | none => ⟨reservations, false⟩
  | some reservation0 =>
    if !user.administrator then
      ⟨reservations, false⟩
    else
      let r1 := match reason? with
        | some reason => {reservation0 with reason := reason}
        | none => reservation0
      match username? with
      | some username =>
        if usernames.contains username then
          update_times_step devices reservations reservation_id
            {r1 with username := username} device_id? device_name?
            start_time? end_time? time_now
        else
          ⟨reservations, false⟩
      | none =>
        update_times_step devices reservations reservation_id r1
          device_id? device_name? start_time? end_time? time_now

def reservation_not_found_message : String := "Reservation not found."

def delete_success_message : String := "Reservation deleted successfully!"

def delete_permission_message : String :=
  "You do not have permission to delete this reservation."

/-- The POST/DELETE branch of the reservation `home` route
(src/website/reservation_page_routing.py lines 58-76): the reservation is
looked up by id; only an administrator or the owner reaches
`table_delete_item`, anyone else gets the permission flash and no
mutation. -/
def delete_reservation_flow (reservations : List Reservation) (user : User)
    (reservation_id : Nat) : List Reservation × List String :=
  match reservations.find? (fun r => r.id == reservation_id) with
  | none => (reservations, [reservation_not_found_message])
  | some reservation =>
    if user.administrator || reservation.username == user.username then
      (reservations.eraseP (fun r => r.id == reservation_id),
        [delete_success_message])
    else
      (reservations, [delete_permission_message])

def last_use_message : String :=
  "The last use of a device can not be in the future"

/-- The POST branch of the device `update` route
(src/website/device_page_routing.py lines 177-207).  The route loops over
the five device fields, but only the `device_name` branch performs any
assignment, and its `setattr(device, device_field, value)` sits *inside*
the `for reservation in all_current_device_reservations:` loop — so the
device record (and every reservation referencing it) is renamed exactly
when that filtered reservation list is non-empty.  A supplied `last_use`
value is validated against the clock (flashing a message when it lies in
the future) but is never assigned; `device_brand`, `device_status` and
`device_type` are read and ignored. -/
def device_update_messages (last_use? : Option Int) (time_now : Int) :
    List String :=
  match last_use? with
  | some v => if v > time_now then [last_use_message] else []
  | none => []

def device_update_flow (device : Device) (reservations : List Reservation)
    (device_name? : Option String)
    ( _device_brand? _device_status? _device_type? : Option String)
    (last_use? : Option Int) (time_now : Int) :
    Device × List Reservation × List String :=
  match device_name? with
  | some value =>
    if (reservations.filter (fun r => r.device_id == device.id)).isEmpty then
      (device, reservations, device_update_messages last_use? time_now)
    else
      ({device with device_name := value},
        reservations.map (fun r =>
          if r.device_id == device.id then {r with device_name := value}
          else r),
        device_update_messages last_use? time_now)
  | none => (device, reservations, device_update_messages last_use? time_now)

def demo_devices : List Device :=
  [⟨1, "Dell", "Laptop", "active", "laptop", none⟩]

def demo_admin : User := ⟨"admin", "admin@example.com", true⟩

def demo_usernames : List String := ["admin"]

/-- Step 1 of the C1 scenario: create reservation 1 on device 1 over
`[100, 200]` (accepted, the table is empty). -/
def overlap_step1 : CreateOutcome :=
  create_flow demo_devices demo_usernames [] demo_admin (some 1) ""
    100 200 "w" 0 1 true

/-- Step 2: create reservation 2 on device 1 over `[300, 400]` (accepted,
disjoint from reservation 1). -/
def overlap_step2 : CreateOutcome :=
  create_flow demo_devices demo_usernames overlap_step1.reservations
    demo_admin (some 1) "" 300 400 "w" 0 2 true

/-- Step 3: the administrator updates only the times of reservation 1 to
`[250, 400]`; the route runs `check_start_and_end_time` but never
`check_if_device_is_available`, and commits. -/
def overlap_step3 : UpdateOutcome :=
  update_flow demo_devices demo_usernames overlap_step2.reservations
    demo_admin 1 none none none (some 250) (some 400) none 0

/-- Claim C1 fails on the code: after two accepted creates and one
accepted administrator update that changes only `start_time`/`end_time`,
the persisted state holds two reservations on the same device with
`¬(a.end_time < b.start_time ∨ b.end_time < a.start_time)` — the time-only
update path of the update route never re-runs the availability check. -/
theorem reservation_update_breaks_no_overlap :
    overlap_step1.created = true
    ∧ overlap_step2.created = true
    ∧ overlap_step3.updated = true
    ∧ ∃ a ∈ overlap_step3.reservations, ∃ b ∈ overlap_step3.reservations,
        a.id ≠ b.id ∧ a.device_id = b.device_id
          ∧ ¬(a.end_time < b.start_time ∨ b.end_time < a.start_time) := by
  decide

/-- Claim C7 fails on the code: a request that passes validation and
availability checking but whose notification scheduling fails is *not*
committed — `schedule_reservation_notification` is called before
`table_create_item` with no exception handling, so the error propagates
and the reservation is never persisted. -/
theorem create_schedule_failure_not_committed :
    (check_start_and_end_time 100 200 0).1 = true
    ∧ check_if_device_is_available [] 1 100 200 = true
    ∧ (create_flow demo_devices demo_usernames [] demo_admin (some 1) ""
        100 200 "w" 0 1 false).created = false
    ∧ (create_flow demo_devices demo_usernames [] demo_admin (some 1) ""
        100 200 "w" 0 1 false).raised = true
    ∧ (create_flow demo_devices demo_usernames [] demo_admin (some 1) ""
        100 200 "w" 0 1 false).reservations = [] := by
  decide

/-- Amended C7: when notification scheduling fails, the create request
aborts with an uncaught error before persistence — the reservation is
never committed and the persisted state is unchanged (no partial state,
but no fire-and-forget either). -/
theorem create_flow_sched_failure_aborts (devices : List Device)
    (usernames : List String) (reservations : List Reservation) (user : User)
    (device_id? : Option Nat) (device_name : String)
    (start_time end_time : Int) (reason : String) (time_now : Int)
    (new_id : Nat) :
    (create_flow devices usernames reservations user device_id? device_name
        start_time end_time reason time_now new_id false).created = false
    ∧ (create_flow devices usernames reservations user device_id? device_name
        start_time end_time reason time_now new_id false).reservations
      = reservations := by
  unfold create_flow create_finish
  repeat' split
  all_goals try contradiction
  all_goals exact ⟨rfl, rfl⟩

/-- Claim C9: a delete request on an existing reservation mutates the
table iff the requester is an administrator or the owner; in that case
exactly the found row is erased and the success message flashed, while
any other user gets the permission message and an unchanged table. -/
theorem delete_reservation_permission (reservations : List Reservation)
    (user : User) (reservation_id : Nat) (reservation : Reservation)
    (hfind : reservations.find? (fun r => r.id == reservation_id)
      = some reservation) :
    (((delete_reservation_flow reservations user reservation_id).1
        ≠ reservations) ↔
      (user.administrator = true ∨ reservation.username = user.username))
    ∧ ((user.administrator = true ∨ reservation.username = user.username) →
        delete_reservation_flow reservations user reservation_id
          = (reservations.eraseP (fun r => r.id == reservation_id),
              [delete_success_message]))
    ∧ (¬(user.administrator = true ∨ reservation.username = user.username) →
        delete_reservation_flow reservations user reservation_id
          = (reservations, [delete_permission_message])) := by
  have hmem : reservation ∈ reservations := List.mem_of_find?_eq_some hfind
  have hpred := List.find?_some hfind
  have herase :
      (reservations.eraseP (fun r => r.id == reservation_id)).length + 1
        = reservations.length :=
    List.length_eraseP_add_one hmem hpred
  have hne : reservations.eraseP (fun r => r.id == reservation_id)
      ≠ reservations := by
    intro he
    have := congrArg List.length he
    omega
  have hflow : delete_reservation_flow reservations user reservation_id
      = if (user.administrator || reservation.username == user.username) = true
        then (reservations.eraseP (fun r => r.id == reservation_id),
          [delete_success_message])
        else (reservations, [delete_permission_message]) := by
    unfold delete_reservation_flow
    rw [hfind]
  rw [hflow]
  by_cases hperm : user.administrator = true
      ∨ reservation.username = user.username
  · have hb : (user.administrator
        || (reservation.username == user.username)) = true := by
      rcases hperm with h | h
      · simp [h]
      · simp [h]
    rw [if_pos hb]
    exact ⟨⟨fun _ => hperm, fun _ => hne⟩, fun _ => rfl,
      fun hn => absurd hperm hn⟩
  · have hb : ¬((user.administrator
        || (reservation.username == user.username)) = true) := by
      intro hcontra
      simp only [Bool.or_eq_true, beq_iff_eq] at hcontra
      exact hperm hcontra
    rw [if_neg hb]
    exact ⟨⟨fun hne2 => absurd rfl hne2, fun hp => absurd hp hperm⟩,
      fun hp => absurd hp hperm, fun _ => rfl⟩

/-- Witness for C9: a non-administrator who does not own reservation 1
gets the permission message and an unchanged table. -/
theorem delete_reservation_permission_witness :
    delete_reservation_flow [⟨1, 1, "D", "alice", 10, 20, "w"⟩]
        ⟨"bob", "b@x", false⟩ 1
      = ([⟨1, 1, "D", "alice", 10, 20, "w"⟩], [delete_permission_message]) :=
  (delete_reservation_permission [⟨1, 1, "D", "alice", 10, 20, "w"⟩]
      ⟨"bob", "b@x", false⟩ 1 ⟨1, 1, "D", "alice", 10, 20, "w"⟩
      (by decide)).2.2 (by decide)

/-- Claim C10: in the device update route, a supplied rename is silently
dropped when the device has zero reservations (device record unchanged);
with at least one reservation it renames the device and the denormalized
`device_name` of every reservation referencing it; and `device_brand`,
`device_status`, `device_type` and `last_use` are never modified. -/
theorem device_update_flow_spec (device : Device)
    (reservations : List Reservation)
    (device_name? device_brand? device_status? device_type? : Option String)
    (last_use? : Option Int) (time_now : Int) :
    ((reservations.filter (fun r => r.device_id == device.id)) = [] →
      (device_update_flow device reservations device_name? device_brand?
          device_status? device_type? last_use? time_now).1 = device
      ∧ (device_update_flow device reservations device_name? device_brand?
          device_status? device_type? last_use? time_now).2.1 = reservations)
    ∧ (∀ value, device_name? = some value →
        (reservations.filter (fun r => r.device_id == device.id)) ≠ [] →
        (device_update_flow device reservations device_name? device_brand?
            device_status? device_type? last_use? time_now).1.device_name
          = value
        ∧ ∀ r ∈ (device_update_flow device reservations device_name?
            device_brand? device_status? device_type? last_use?
            time_now).2.1,
            r.device_id = device.id → r.device_name = value)
    ∧ ((device_update_flow device reservations device_name? device_brand?
          device_status? device_type? last_use? time_now).1.device_brand
        = device.device_brand
      ∧ (device_update_flow device reservations device_name? device_brand?
          device_status? device_type? last_use? time_now).1.device_status
        = device.device_status
      ∧ (device_update_flow device reservations device_name? device_brand?
          device_status? device_type? last_use? time_now).1.device_type
        = device.device_type
      ∧ (device_update_flow device reservations device_name? device_brand?
          device_status? device_type? last_use? time_now).1.last_use
        = device.last_use) := by
  refine ⟨?_, ?_, ?_⟩
  · intro hfil
    cases device_name? with
    | none => exact ⟨rfl, rfl⟩
    | some value =>
      simp only [device_update_flow]
      rw [if_pos (by rw [hfil]; rfl)]
      exact ⟨rfl, rfl⟩
  · intro value hval hfil
    subst hval
    simp only [device_update_flow]
    rw [if_neg (by rw [List.isEmpty_iff]; exact hfil)]
    refine ⟨rfl, ?_⟩
    intro r hr hdev
    simp only [List.mem_map] at hr
    obtain ⟨x, _, hx⟩ := hr
    by_cases hxd : (x.device_id == device.id) = true
    · rw [if_pos hxd] at hx
      rw [← hx]
    · rw [if_neg hxd] at hx
      subst hx
      exact absurd (by simp [hdev]) hxd
  · cases device_name? with
    | none => exact ⟨rfl, rfl, rfl, rfl⟩
    | some value =>
      simp only [device_update_flow]
      by_cases hfil :
          ((reservations.filter (fun r => r.device_id == device.id)).isEmpty)
            = true
      · rw [if_pos hfil]
        exact ⟨rfl, rfl, rfl, rfl⟩
      · rw [if_neg hfil]
        exact ⟨rfl, rfl, rfl, rfl⟩

/-- Witness for C10: renaming device 1 with zero reservations leaves the
record untouched; renaming it with one reservation applies the new name
to both the device and the reservation. -/
theorem device_update_flow_spec_witness :
    ((device_update_flow ⟨1, "b", "Old", "s", "t", none⟩ [] (some "New")
        none none none none 0).1 = ⟨1, "b", "Old", "s", "t", none⟩)
    ∧ ((device_update_flow ⟨1, "b", "Old", "s", "t", none⟩
        [⟨1, 1, "Old", "u", 10, 20, "w"⟩] (some "New")
        none none none none 0).1.device_name = "New") :=
  ⟨(device_update_flow_spec ⟨1, "b", "Old", "s", "t", none⟩ [] (some "New")
      none none none none 0).1 (by decide) |>.1,
   ((device_update_flow_spec ⟨1, "b", "Old", "s", "t", none⟩
      [⟨1, 1, "Old", "u", 10, 20, "w"⟩] (some "New")
      none none none none 0).2.1 "New" rfl (by decide)).1⟩

end Website
